import Mathlib

/-!
Verification development for the ChainFlow AI Sheets repository.

The repository is a spreadsheet-style front end: every column is a
transformation step applied by a language-model call, and each row's cells are
chained by column source references.  This file gives a shallow embedding of
the data model (`types`), the chain executor and structural operations of the
main application component, and the two provider adapters of
`services/llmService.ts`, and proves the specified properties about them.

Modelling conventions:
  * React state (`rows`, `headers`, `settings`) is passed explicitly; the
    functional `setRows` updates of the source become pure functions from the
    row list to the row list.
  * The asynchronous generation adapter (`generateContent`) is abstracted as
    an oracle `gen : String → String → Except String String` mapping
    (systemPrompt, userPrompt) to either the produced text or the rejection
    message.
  * `executeGeneration` additionally returns the ordered trace of adapter
    calls it issued, so that "no adapter call is made" and "which input each
    dependent was generated from" are statable.
  * Recursion is bounded by explicit fuel; the source recursion has no bound
    (a cyclic source graph recurses forever, a documented gap), and every
    theorem below is about a `fuel + 1` unfolding, so the bound never bites.
-/

/-- `ProviderType` from `types.ts`. -/
inductive ProviderType where
  | GEMINI : ProviderType
  | LOCAL : ProviderType
  deriving DecidableEq, Repr

/-- `CellStatus` from `types.ts`. -/
inductive CellStatus where
  | IDLE : CellStatus
  | LOADING : CellStatus
  | SUCCESS : CellStatus
  | ERROR : CellStatus
  deriving DecidableEq, Repr

/-- `AppSettings` from `types.ts`. -/
structure AppSettings where
  provider : ProviderType
  localBaseUrl : String
  localModelName : String
  geminiModelName : String
  deriving DecidableEq, Repr

/-- `CellData` from `types.ts`; the optional `errorMessage?` field becomes
`Option String` with `none` for absent. -/
structure CellData where
  id : String
  value : String
  status : CellStatus
  errorMessage : Option String
  deriving DecidableEq, Repr

/-- `RowData` from `types.ts`: cell index matches column index. -/
structure RowData where
  id : String
  cells : List CellData
  deriving DecidableEq, Repr

/-- `ColumnHeader` from `types.ts`; the optional `sourceColumnId?` field
becomes `Option String`. -/
structure ColumnHeader where
  id : String
  label : String
  systemPrompt : String
  sourceColumnId : Option String
  isInput : Bool
  deriving DecidableEq, Repr

/-- A `Partial<CellData>` object as passed to `updateCell` (the source only
ever updates `value`, `status` and `errorMessage`).  A field of `none` is an
absent key; `errorMessage := some none` is the present key
`errorMessage: undefined`, which clears the stored message under JS spread. -/
structure CellUpdates where
  value : Option String := none
  status : Option CellStatus := none
  errorMessage : Option (Option String) := none
  deriving DecidableEq, Repr

/-- The JS spread `{ ...cell, ...updates }` restricted to the three fields
`updateCell` is called with. -/
def applyUpdates (c : CellData) (u : CellUpdates) : CellData :=
  { c with
    value := u.value.getD c.value
    status := u.status.getD c.status
    errorMessage := u.errorMessage.getD c.errorMessage }

/-- The body of `updateCell` restricted to one row:
`const newCells = [...row.cells]; if (newCells[colIndex]) { newCells[colIndex] = {...old, ...updates} }`.
An out-of-range index leaves the cell list unchanged. -/
def updateRowCells (cells : List CellData) (colIndex : Nat) (u : CellUpdates) :
    List CellData :=
  match cells.get? colIndex with
  | none => cells
  | some c => cells.set colIndex (applyUpdates c u)

/-- `updateCell` from the application component: functional `setRows` update
mapping every row, touching only rows whose id matches. -/
def updateCell (rows : List RowData) (rowId : String) (colIndex : Nat)
    (u : CellUpdates) : List RowData :=
  rows.map fun row =>
    if row.id = rowId then { row with cells := updateRowCells row.cells colIndex u }
    else row

/-- Observation helper: the cell stored for the first row whose id matches
(row ids are unique in the application, which creates them from timestamps). -/
def getCell (rows : List RowData) (rowId : String) (colIndex : Nat) :
    Option CellData :=
  match rows.find? (fun r => r.id == rowId) with
  | none => none
  | some r => r.cells.get? colIndex

/-- Outcome of the source-value resolution step of `executeGeneration`
(its step 1).  `configError` is the early return that marks the cell failed;
`missingRow` is the silent early return `if (!row) return`. -/
inductive SourceLookup where
  | configError : SourceLookup
  | missingRow : SourceLookup
  | value : String → SourceLookup
  deriving DecidableEq, Repr

/-- Step 1 of `executeGeneration`: `directInputVal` if provided, otherwise a
lookup of the target header's source column in the current row state.
`headers.findIndex(h => h.id === sourceColId)` and
`row.cells[sourceColIndex]?.value || ''` are translated field by field. -/
def resolveSource (headers : List ColumnHeader) (rows : List RowData)
    (targetHeader : ColumnHeader) (rowId : String)
    (directInputVal : Option String) : SourceLookup :=
  match directInputVal with
  | some v => SourceLookup.value v
  | none =>
    match headers.findIdx? (fun h => some h.id == targetHeader.sourceColumnId) with
    | none => SourceLookup.configError
    | some sourceColIndex =>
      match rows.find? (fun r => r.id == rowId) with
      | none => SourceLookup.missingRow
      | some row =>
        SourceLookup.value (((row.cells.get? sourceColIndex).map CellData.value).getD "")

/-- The `!sourceValue.trim()` guard: the resolved input is skipped exactly
when it is empty after trimming, i.e. when every character is whitespace.
(`String.trim` itself is not kernel-reducible, so the emptiness-after-trim
test is embedded directly as an all-whitespace check.) -/
def isBlank (s : String) : Bool :=
  s.data.all Char.isWhitespace

/-- One adapter invocation as issued by `executeGeneration`: which cell it was
for, and the (systemPrompt, input) pair handed to `generateContent`. -/
structure GenCall where
  rowId : String
  colIndex : Nat
  systemPrompt : String
  input : String
  deriving DecidableEq, Repr

/-- The `{ status: CellStatus.LOADING, errorMessage: undefined }` update. -/
def loadingUpdate : CellUpdates :=
  { status := some CellStatus.LOADING, errorMessage := some none }

/-- The `{ value: result, status: CellStatus.SUCCESS }` update. -/
def successUpdate (result : String) : CellUpdates :=
  { value := some result, status := some CellStatus.SUCCESS }

/-- The `{ status: CellStatus.ERROR, errorMessage: error.message }` update. -/
def errorUpdate (msg : String) : CellUpdates :=
  { status := some CellStatus.ERROR, errorMessage := some (some msg) }

/-- The `{ status: CellStatus.ERROR, errorMessage: "Source column configuration invalid." }` update. -/
def configErrorUpdate : CellUpdates :=
  errorUpdate "Source column configuration invalid."

/-- The `headers.map((h, index) => ({...h, index})).filter(h => h.sourceColumnId === target.id)`
computation: the dependent columns of `target`, with their indices, in header
order. -/
def dependentsOf (headers : List ColumnHeader) (target : ColumnHeader) :
    List (Nat × ColumnHeader) :=
  headers.enum.filter fun p => p.2.sourceColumnId == some target.id

/-- The `dependents.forEach(dep => executeGeneration(rowId, dep.index, result))`
loop of the success branch, sequentialised: each dependent's execution is run
to completion (state and trace threaded) before the next dependent starts.
The first component of the result is the final row state, the second the
concatenated adapter-call trace. -/
def propagateDependents
    (exec : Nat → Option String → List RowData → List RowData × List GenCall)
    (result : String) :
    List (Nat × ColumnHeader) → List RowData → List RowData × List GenCall
  | [], rows => (rows, [])
  | (i, _h) :: rest, rows =>
    let out := exec i (some result) rows
    let out2 := propagateDependents exec result rest out.1
    (out2.1, out.2 ++ out2.2)

/-- `executeGeneration` from the application component, sequentialised and
bounded by fuel.  Returns the final row state and the ordered trace of
adapter calls issued.  The adapter `gen` abstracts `generateContent`
(with the settings already applied):
`Except.ok` is a resolved promise, `Except.error` a rejection. -/
def executeGeneration (gen : String → String → Except String String)
    (headers : List ColumnHeader) :
    Nat → String → Nat → Option String → List RowData →
    List RowData × List GenCall
  | 0, _rowId, _targetColIndex, _directInputVal, rows => (rows, [])
  | fuel + 1, rowId, targetColIndex, directInputVal, rows =>
    match headers.get? targetColIndex with
    | none => (rows, [])
    | some targetHeader =>
      if targetHeader.isInput then (rows, [])
      else
        match resolveSource headers rows targetHeader rowId directInputVal with
        | SourceLookup.configError =>
          (updateCell rows rowId targetColIndex configErrorUpdate, [])
        | SourceLookup.missingRow => (rows, [])
        | SourceLookup.value sourceValue =>
          if isBlank sourceValue then (rows, [])
          else
            let rows1 := updateCell rows rowId targetColIndex loadingUpdate
            match gen targetHeader.systemPrompt sourceValue with
            | Except.ok result =>
              let rows2 := updateCell rows1 rowId targetColIndex (successUpdate result)
              let out := propagateDependents
                (fun i input rs => executeGeneration gen headers fuel rowId i input rs)
                result (dependentsOf headers targetHeader) rows2
              (out.1, GenCall.mk rowId targetColIndex targetHeader.systemPrompt sourceValue :: out.2)
            | Except.error msg =>
              (updateCell rows1 rowId targetColIndex (errorUpdate msg),
               [GenCall.mk rowId targetColIndex targetHeader.systemPrompt sourceValue])

/-- `handleCellChange` from the application component: manual edit of a cell
sets its value to the typed text and resets its status to idle.  It involves
no adapter and triggers no generation (its model neither takes a generation
oracle nor produces a call trace). -/
def handleCellChange (rows : List RowData) (rowId : String) (colIndex : Nat)
    (newValue : String) : List RowData :=
  updateCell rows rowId colIndex
    { value := some newValue, status := some CellStatus.IDLE }

/-- The synchronous part of one `executeGeneration(rowId, targetColIndex, directInputVal)`
invocation: in the source runtime an async function body runs synchronously up
to its first suspension point, which here is `await generateContent(...)`.
The result is the row state after that synchronous part, together with the
adapter call that is left in flight at the suspension point (`none` when the
invocation returned before calling the adapter). -/
def startGeneration (headers : List ColumnHeader) (rowId : String)
    (targetColIndex : Nat) (directInputVal : Option String)
    (rows : List RowData) : List RowData × Option GenCall :=
  match headers.get? targetColIndex with
  | none => (rows, none)
  | some targetHeader =>
    if targetHeader.isInput then (rows, none)
    else
      match resolveSource headers rows targetHeader rowId directInputVal with
      | SourceLookup.configError =>
        (updateCell rows rowId targetColIndex configErrorUpdate, none)
      | SourceLookup.missingRow => (rows, none)
      | SourceLookup.value sourceValue =>
        if isBlank sourceValue then (rows, none)
        else
          (updateCell rows rowId targetColIndex loadingUpdate,
           some (GenCall.mk rowId targetColIndex targetHeader.systemPrompt sourceValue))

/-- `handleCellBlur` from the application component, at the instant the
handler returns.  The source fires `executeGeneration(rowId, dep.index, value)`
for every dependent inside `dependents.forEach` WITHOUT awaiting the returned
promises: each dependent runs its synchronous part (up to issuing its adapter
call) before the next dependent starts, and none of the issued calls has
resolved when the handler returns.  The second component is therefore the
list of adapter calls in flight at that instant, in issue order.
(The source reads `currentHeader.id` unguarded; for an out-of-range
`colIndex`, never reached from the UI, it would throw — modelled as a no-op.)
`fireDependents` is the `forEach` loop: each dependent's synchronous part
runs in turn, and the issued (still unresolved) calls accumulate. -/
def fireDependents (headers : List ColumnHeader) (rowId value : String) :
    List (Nat × ColumnHeader) → List RowData → List RowData × List GenCall
  | [], rows => (rows, [])
  | (i, _h) :: rest, rows =>
    let out := startGeneration headers rowId i (some value) rows
    let out2 := fireDependents headers rowId value rest out.1
    (out2.1, out.2.toList ++ out2.2)

/-- `handleCellBlur` proper: looks up the blurred column and fires all its
dependents as described above. -/
def handleCellBlurIssued (headers : List ColumnHeader) (rowId : String)
    (colIndex : Nat) (value : String) (rows : List RowData) :
    List RowData × List GenCall :=
  match headers.get? colIndex with
  | none => (rows, [])
  | some currentHeader =>
    fireDependents headers rowId value (dependentsOf headers currentHeader) rows

/-- The `array.filter((_, i) => i !== index)` loop, translated with an
explicit position counter. -/
def filterOutIdxGo (index : Nat) : Nat → List α → List α
  | _, [] => []
  | pos, a :: rest =>
    if pos = index then filterOutIdxGo index (pos + 1) rest
    else a :: filterOutIdxGo index (pos + 1) rest

/-- `l.filter((_, i) => i !== index)`: drop the element at position `index`. -/
def filterOutIndex (index : Nat) (l : List α) : List α :=
  filterOutIdxGo index 0 l

/-- `addRow` from the application component.  The source derives the new
row's id and cell ids from `Date.now()`; the timestamp is the `stamp`
parameter here.  One idle cell is created per current column. -/
def addRow (headers : List ColumnHeader) (rows : List RowData)
    (stamp : String) : List RowData :=
  rows ++
    [{ id := "row-" ++ stamp,
       cells := headers.enum.map fun p =>
         { id := "cell-" ++ stamp ++ "-" ++ toString p.1,
           value := "", status := CellStatus.IDLE, errorMessage := none } }]

/-- `removeRow` from the application component. -/
def removeRow (rows : List RowData) (rowId : String) : List RowData :=
  rows.filter fun r => !(r.id == rowId)

/-- `addColumn` from the application component: appends one header whose
default source is `headers[headers.length - 1]?.id` (the currently last
column, `none` when there are no columns), and appends one idle cell to every
row.  The `Date.now()` timestamp is the `stamp` parameter. -/
def addColumn (headers : List ColumnHeader) (rows : List RowData)
    (stamp : String) : List ColumnHeader × List RowData :=
  let newId := "col-" ++ stamp
  let defaultSourceId := (headers.get? (headers.length - 1)).map ColumnHeader.id
  (headers ++
     [{ id := newId,
        label := "Step " ++ toString headers.length,
        systemPrompt := "New system instruction...",
        sourceColumnId := defaultSourceId,
        isInput := false }],
   rows.map fun row =>
     { row with
       cells := row.cells ++
         [{ id := "cell-" ++ row.id ++ "-" ++ toString headers.length,
            value := "", status := CellStatus.IDLE, errorMessage := none }] })

/-- `removeColumn` from the application component: a no-op at index 0 (the
input column cannot be removed); otherwise drops the header and the cell at
that position from every row. -/
def removeColumn (headers : List ColumnHeader) (rows : List RowData)
    (index : Nat) : List ColumnHeader × List RowData :=
  if index = 0 then (headers, rows)
  else
    (filterOutIndex index headers,
     rows.map fun row => { row with cells := filterOutIndex index row.cells })

/-- The lockstep invariant of §3 of the design: every row holds exactly one
cell per column header, aligned by position. -/
def lockstep (headers : List ColumnHeader) (rows : List RowData) : Prop :=
  ∀ r ∈ rows, r.cells.length = headers.length

/-- One message of the chat-style request payload built by `generateLocal`. -/
structure ChatRequestMessage where
  role : String
  content : String
  deriving DecidableEq, Repr

/-- The HTTP request issued by `generateLocal`: URL, method and the JSON
payload fields (`model`, `messages`, `stream`). -/
structure LocalRequest where
  url : String
  method : String
  model : String
  messages : List ChatRequestMessage
  stream : Bool
  deriving DecidableEq, Repr

/-- The request constructed by `generateLocal` in `services/llmService.ts`:
a POST to `{baseUrl}/v1/chat/completions` with the configured model, a system
message, a user message, and `stream: false`. -/
def buildLocalRequest (systemPrompt userPrompt : String)
    (settings : AppSettings) : LocalRequest :=
  { url := settings.localBaseUrl ++ "/v1/chat/completions",
    method := "POST",
    model := settings.localModelName,
    messages := [ChatRequestMessage.mk "system" systemPrompt,
                 ChatRequestMessage.mk "user" userPrompt],
    stream := false }

/-- The `message` object of one choice of a chat-completion response body;
the `content` field may be absent. -/
structure ChatMessageJson where
  content : Option String
  deriving DecidableEq, Repr

/-- One element of the `choices` array; the `message` field may be absent. -/
structure ChatChoiceJson where
  message : Option ChatMessageJson
  deriving DecidableEq, Repr

/-- The parsed JSON body of a chat-completion response; the `choices` field
may be absent. -/
structure ChatCompletionJson where
  choices : Option (List ChatChoiceJson)
  deriving DecidableEq, Repr

/-- An HTTP response as observed by `generateLocal`: the status code, the
body as text (read on the error path), and the result of `response.json()`
(`Except.error` models a rejected parse, e.g. an empty or malformed body,
carrying the thrown message). -/
structure HttpResponse where
  status : Nat
  bodyText : String
  json : Except String ChatCompletionJson
  deriving Repr

/-- `response.ok` of the fetch API: true exactly for 2xx status codes. -/
def HttpResponse.respOk (r : HttpResponse) : Bool :=
  200 ≤ r.status && r.status < 300

/-- Outcome of `fetch`: a network-level rejection (with its message) or a
response. -/
inductive FetchOutcome where
  | networkError : String → FetchOutcome
  | success : HttpResponse → FetchOutcome
  deriving Repr

/-- `data.choices?.[0]?.message?.content || ""` from `generateLocal`. -/
def firstChoiceContent (data : ChatCompletionJson) : String :=
  ((((data.choices.bind fun cs => cs.get? 0).bind
      ChatChoiceJson.message).bind ChatMessageJson.content).getD "")

/-- `generateLocal` from `services/llmService.ts`, over a fetch oracle.
A network error or JSON-parse rejection is caught and rethrown as
`error.message || "Failed to connect to Local LLM"`; a non-2xx response
throws `Local LLM Error: {status} - {bodyText}` (the catch block rethrows it
with the same message); a parsed 2xx response yields the first choice's
message content, defaulting to the empty string. -/
def generateLocal (fetchFn : LocalRequest → FetchOutcome)
    (systemPrompt userPrompt : String) (settings : AppSettings) :
    Except String String :=
  match fetchFn (buildLocalRequest systemPrompt userPrompt settings) with
  | FetchOutcome.networkError msg =>
    Except.error (if msg = "" then "Failed to connect to Local LLM" else msg)
  | FetchOutcome.success response =>
    if response.respOk = false then
      Except.error ("Local LLM Error: " ++ toString response.status ++ " - "
        ++ response.bodyText)
    else
      match response.json with
      | Except.error msg =>
        Except.error (if msg = "" then "Failed to connect to Local LLM" else msg)
      | Except.ok data => Except.ok (firstChoiceContent data)

/-- The response observed by `generateGemini`: `response.text` may be absent. -/
structure GeminiResponse where
  text : Option String
  deriving DecidableEq, Repr

/-- Outcome of the Gemini SDK call: a rejection (with its message) or a
response. -/
inductive GeminiOutcome where
  | apiError : String → GeminiOutcome
  | success : GeminiResponse → GeminiOutcome
  deriving DecidableEq, Repr

/-- `generateGemini` from `services/llmService.ts`, over an API oracle.
An SDK rejection is caught and rethrown as
`error.message || "Failed to generate with Gemini"`; an absent or empty
`response.text` (`if (!text)`) throws `Empty response from Gemini`; otherwise
the text is returned. -/
def generateGemini (api : GeminiOutcome)
    (_systemPrompt _userPrompt : String) (_settings : AppSettings) :
    Except String String :=
  match api with
  | GeminiOutcome.apiError msg =>
    Except.error (if msg = "" then "Failed to generate with Gemini" else msg)
  | GeminiOutcome.success resp =>
    match resp.text with
    | none => Except.error "Empty response from Gemini"
    | some t =>
      if t = "" then Except.error "Empty response from Gemini" else Except.ok t

/-- `generateContent` from `services/llmService.ts`: dispatch on the selected
provider. -/
def generateContent (fetchFn : LocalRequest → FetchOutcome)
    (api : GeminiOutcome) (systemPrompt userPrompt : String)
    (settings : AppSettings) : Except String String :=
  if settings.provider = ProviderType.LOCAL then
    generateLocal fetchFn systemPrompt userPrompt settings
  else
    generateGemini api systemPrompt userPrompt settings

/-- The initial column headers of the application component: an input column
and a two-step generation chain col-0 → col-1 → col-2. -/
def initialHeaders : List ColumnHeader :=
  [{ id := "col-0", label := "User Input", systemPrompt := "",
     sourceColumnId := none, isInput := true },
   { id := "col-1", label := "Step 1 Output",
     systemPrompt := "Summarize the input in one sentence.",
     sourceColumnId := some "col-0", isInput := false },
   { id := "col-2", label := "Step 2 Output",
     systemPrompt := "Translate the summary to French.",
     sourceColumnId := some "col-1", isInput := false }]

/-- A concrete one-row store matching `initialHeaders`, used as witness
input. -/
def sampleRows : List RowData :=
  [{ id := "row-0",
     cells := [CellData.mk "cell-0-0" "hello" CellStatus.IDLE none,
               CellData.mk "cell-0-1" "" CellStatus.IDLE none,
               CellData.mk "cell-0-2" "" CellStatus.IDLE none] }]

/-- A branching column layout: col-1 and col-2 both take col-0 as source. -/
def branchingHeaders : List ColumnHeader :=
  [{ id := "col-0", label := "User Input", systemPrompt := "",
     sourceColumnId := none, isInput := true },
   { id := "col-1", label := "Branch 1", systemPrompt := "p1",
     sourceColumnId := some "col-0", isInput := false },
   { id := "col-2", label := "Branch 2", systemPrompt := "p2",
     sourceColumnId := some "col-0", isInput := false }]

/-! ### Helper lemmas about cell updates -/

theorem applyUpdates_loading (c : CellData) :
    applyUpdates c loadingUpdate
      = { c with status := CellStatus.LOADING, errorMessage := none } := rfl

theorem applyUpdates_success (c : CellData) (result : String) :
    applyUpdates c (successUpdate result)
      = { c with value := result, status := CellStatus.SUCCESS } := rfl

theorem applyUpdates_error (c : CellData) (msg : String) :
    applyUpdates c (errorUpdate msg)
      = { c with status := CellStatus.ERROR, errorMessage := some msg } := rfl

theorem get?_updateRowCells_ne (cells : List CellData) (i j : Nat)
    (u : CellUpdates) (h : j ≠ i) :
    (updateRowCells cells i u).get? j = cells.get? j := by
  unfold updateRowCells
  cases hc : cells.get? i with
  | none => rfl
  | some c => exact List.get?_set_ne _ _ (fun he => h he.symm)

theorem get?_updateRowCells_self (cells : List CellData) (i : Nat)
    (u : CellUpdates) :
    (updateRowCells cells i u).get? i
      = (cells.get? i).map (fun c => applyUpdates c u) := by
  unfold updateRowCells
  cases hc : cells.get? i with
  | none => exact hc
  | some c => rw [List.get?_set_eq, hc]; rfl

theorem find?_updateCell (rows : List RowData) (rowId rid : String) (i : Nat)
    (u : CellUpdates) :
    (updateCell rows rowId i u).find? (fun r => r.id == rid)
      = (rows.find? (fun r => r.id == rid)).map
          (fun r =>
            if r.id = rowId then { r with cells := updateRowCells r.cells i u }
            else r) := by
  induction rows with
  | nil => rfl
  | cons r rest ih =>
    have hid : (if r.id = rowId then { r with cells := updateRowCells r.cells i u }
        else r).id = r.id := by split <;> rfl
    simp only [updateCell, List.map_cons]
    cases hp : (r.id == rid) with
    | true =>
      have hp2 : ((if r.id = rowId then { r with cells := updateRowCells r.cells i u }
          else r).id == rid) = true := by rw [hid]; exact hp
      rw [List.find?_cons_of_pos (p := fun (r : RowData) => r.id == rid) _ hp2,
        List.find?_cons_of_pos (p := fun (r : RowData) => r.id == rid) _ hp, Option.map_some']
    | false =>
      have hp2 : ¬ ((if r.id = rowId then { r with cells := updateRowCells r.cells i u }
          else r).id == rid) = true := by rw [hid, hp]; exact Bool.false_ne_true
      rw [List.find?_cons_of_neg (p := fun (r : RowData) => r.id == rid) _ hp2,
        List.find?_cons_of_neg (p := fun (r : RowData) => r.id == rid) _
          (by simpa using hp)]
      exact ih

theorem getCell_updateCell_of_ne (rows : List RowData) (rowId rid : String)
    (i j : Nat) (u : CellUpdates) (h : rid ≠ rowId ∨ j ≠ i) :
    getCell (updateCell rows rowId i u) rid j = getCell rows rid j := by
  unfold getCell
  rw [find?_updateCell]
  cases hf : rows.find? (fun r => r.id == rid) with
  | none => rfl
  | some r =>
    have hrid : r.id = rid := by
      have := List.find?_some hf
      exact eq_of_beq this
    simp only [Option.map_some']
    rcases h with h | h
    · rw [if_neg (by rw [hrid]; exact h)]
    · split
      · exact get?_updateRowCells_ne r.cells i j u h
      · rfl

theorem getCell_updateCell_self (rows : List RowData) (rowId : String)
    (i : Nat) (u : CellUpdates) :
    getCell (updateCell rows rowId i u) rowId i
      = (getCell rows rowId i).map (fun c => applyUpdates c u) := by
  unfold getCell
  rw [find?_updateCell]
  cases hf : rows.find? (fun r => r.id == rowId) with
  | none => rfl
  | some r =>
    have hrid : r.id = rowId := by
      have := List.find?_some hf
      exact eq_of_beq this
    simp only [Option.map_some', if_pos hrid]
    exact get?_updateRowCells_self r.cells i u

theorem updateCell_no_matching_row (rows : List RowData) (rowId : String)
    (i : Nat) (u : CellUpdates) (h : ∀ r ∈ rows, r.id ≠ rowId) :
    updateCell rows rowId i u = rows := by
  induction rows with
  | nil => rfl
  | cons r rest ih =>
    simp only [updateCell, List.map_cons]
    rw [if_neg (h r (List.mem_cons_self r rest))]
    have := ih (fun r hr => h r (List.mem_cons_of_mem _ hr))
    simp only [updateCell] at this
    rw [this]

theorem updateCell_out_of_range (rows : List RowData) (rowId : String)
    (i : Nat) (u : CellUpdates)
    (h : ∀ r ∈ rows, r.id = rowId → r.cells.get? i = none) :
    updateCell rows rowId i u = rows := by
  induction rows with
  | nil => rfl
  | cons r rest ih =>
    simp only [updateCell, List.map_cons]
    have hrest := ih (fun r hr => h r (List.mem_cons_of_mem _ hr))
    simp only [updateCell] at hrest
    rw [hrest]
    split
    · rename_i hid
      have hc := h r (List.mem_cons_self r rest) hid
      simp only [updateRowCells, hc]
    · rfl

/-- A concrete always-succeeding adapter oracle used by witnesses. -/
def chainOracle : String → String → Except String String :=
  fun _s u => Except.ok ("gen:" ++ u)

/-- A concrete always-rejecting adapter oracle used by witnesses. -/
def failOracle : String → String → Except String String :=
  fun _s _u => Except.error "boom"

/-- C1.  For every row and every non-entry target column, when the generation
adapter call succeeds, `runGeneration` sets the target cell to succeeded with
the adapter's returned text as its value (first conjunct of the conclusion:
the state handed to the propagation step holds the returned text with status
SUCCESS), and then recursively invokes itself, depth-first, for exactly the
headers whose source column id equals the target's id, passing the
just-produced text as `directInput` (the equation: the recursion is
`propagateDependents`, which hands `some result` — never a row-store read —
to every dependent, so a chain A → B → C regenerates B and then C with C's
input being B's freshly produced value). -/
theorem executeGeneration_success_sets_cell_and_propagates
    (gen : String → String → Except String String)
    (headers : List ColumnHeader) (fuel : Nat) (rowId : String)
    (targetColIndex : Nat) (directInputVal : Option String)
    (rows : List RowData) (targetHeader : ColumnHeader) (v result : String)
    (hh : headers.get? targetColIndex = some targetHeader)
    (hni : targetHeader.isInput = false)
    (hres : resolveSource headers rows targetHeader rowId directInputVal
      = SourceLookup.value v)
    (hnb : isBlank v = false)
    (hgen : gen targetHeader.systemPrompt v = Except.ok result) :
    (∀ c, getCell rows rowId targetColIndex = some c →
      getCell (updateCell (updateCell rows rowId targetColIndex loadingUpdate)
          rowId targetColIndex (successUpdate result)) rowId targetColIndex
        = some { c with value := result, status := CellStatus.SUCCESS,
                        errorMessage := none })
    ∧ executeGeneration gen headers (fuel + 1) rowId targetColIndex
        directInputVal rows
      = (let rows2 := updateCell (updateCell rows rowId targetColIndex
             loadingUpdate) rowId targetColIndex (successUpdate result)
         let out := propagateDependents
             (fun i input rs => executeGeneration gen headers fuel rowId i input rs)
             result (dependentsOf headers targetHeader) rows2
         (out.1,
          GenCall.mk rowId targetColIndex targetHeader.systemPrompt v :: out.2)) := by
  constructor
  · intro c hc
    rw [getCell_updateCell_self, getCell_updateCell_self, hc]
    rfl
  · simp only [executeGeneration, hh, hni, hres, hnb, hgen]
    simp

/-- C1 witness: the theorem applied to the initial three-column chain at
column 1 (Step 1 Output), with direct input "hello" and an adapter producing
"gen:" ++ input. -/
theorem executeGeneration_success_sets_cell_and_propagates_witness :
    executeGeneration chainOracle initialHeaders 2 "row-0" 1 (some "hello")
        sampleRows
      = (let rows2 := updateCell (updateCell sampleRows "row-0" 1
             loadingUpdate) "row-0" 1 (successUpdate "gen:hello")
         let out := propagateDependents
             (fun i input rs =>
               executeGeneration chainOracle initialHeaders 1 "row-0" i input rs)
             "gen:hello"
             (dependentsOf initialHeaders
               { id := "col-1", label := "Step 1 Output",
                 systemPrompt := "Summarize the input in one sentence.",
                 sourceColumnId := some "col-0", isInput := false }) rows2
         (out.1,
          GenCall.mk "row-0" 1 "Summarize the input in one sentence." "hello"
            :: out.2)) :=
  (executeGeneration_success_sets_cell_and_propagates chainOracle
    initialHeaders 1 "row-0" 1 (some "hello") sampleRows
    { id := "col-1", label := "Step 1 Output",
      systemPrompt := "Summarize the input in one sentence.",
      sourceColumnId := some "col-0", isInput := false }
    "hello" "gen:hello" rfl rfl rfl (by decide) rfl).2

/-- C2.  For every row and target column, when the adapter call rejects,
`runGeneration` sets only the target cell to failed with the adapter's error
message: the equation shows the trace holds exactly the target's own adapter
call (no dependent generation is invoked), the second conjunct shows every
other cell — downstream cells included — keeps exactly its previous value and
status, and the third shows the target cell keeps its value and gets status
ERROR with the adapter's message. -/
theorem executeGeneration_failure_is_local
    (gen : String → String → Except String String)
    (headers : List ColumnHeader) (fuel : Nat) (rowId : String)
    (targetColIndex : Nat) (directInputVal : Option String)
    (rows : List RowData) (targetHeader : ColumnHeader) (v msg : String)
    (hh : headers.get? targetColIndex = some targetHeader)
    (hni : targetHeader.isInput = false)
    (hres : resolveSource headers rows targetHeader rowId directInputVal
      = SourceLookup.value v)
    (hnb : isBlank v = false)
    (hgen : gen targetHeader.systemPrompt v = Except.error msg) :
    executeGeneration gen headers (fuel + 1) rowId targetColIndex
        directInputVal rows
      = (updateCell (updateCell rows rowId targetColIndex loadingUpdate)
           rowId targetColIndex (errorUpdate msg),
         [GenCall.mk rowId targetColIndex targetHeader.systemPrompt v])
    ∧ (∀ rid j, rid ≠ rowId ∨ j ≠ targetColIndex →
        getCell (executeGeneration gen headers (fuel + 1) rowId targetColIndex
            directInputVal rows).1 rid j
          = getCell rows rid j)
    ∧ (∀ c, getCell rows rowId targetColIndex = some c →
        getCell (executeGeneration gen headers (fuel + 1) rowId targetColIndex
            directInputVal rows).1 rowId targetColIndex
          = some { c with status := CellStatus.ERROR,
                          errorMessage := some msg }) := by
  have heq : executeGeneration gen headers (fuel + 1) rowId targetColIndex
      directInputVal rows
    = (updateCell (updateCell rows rowId targetColIndex loadingUpdate)
         rowId targetColIndex (errorUpdate msg),
       [GenCall.mk rowId targetColIndex targetHeader.systemPrompt v]) := by
    simp only [executeGeneration, hh, hni, hres, hnb, hgen]
    simp
  refine ⟨heq, ?_, ?_⟩
  · intro rid j hne
    rw [heq]
    rw [getCell_updateCell_of_ne _ _ _ _ _ _ hne,
      getCell_updateCell_of_ne _ _ _ _ _ _ hne]
  · intro c hc
    rw [heq]
    rw [getCell_updateCell_self, getCell_updateCell_self, hc]
    rfl

/-- C2 witness: the theorem applied to the initial chain at column 1 with a
rejecting adapter; in particular the downstream cell at column 2 is
untouched. -/
theorem executeGeneration_failure_is_local_witness :
    executeGeneration failOracle initialHeaders 2 "row-0" 1 (some "hello")
        sampleRows
      = (updateCell (updateCell sampleRows "row-0" 1 loadingUpdate)
           "row-0" 1 (errorUpdate "boom"),
         [GenCall.mk "row-0" 1 "Summarize the input in one sentence." "hello"])
    ∧ getCell (executeGeneration failOracle initialHeaders 2 "row-0" 1
          (some "hello") sampleRows).1 "row-0" 2
        = getCell sampleRows "row-0" 2 := by
  have h := executeGeneration_failure_is_local failOracle initialHeaders 1
    "row-0" 1 (some "hello") sampleRows
    { id := "col-1", label := "Step 1 Output",
      systemPrompt := "Summarize the input in one sentence.",
      sourceColumnId := some "col-0", isInput := false }
    "hello" "boom" rfl rfl rfl (by decide) rfl
  exact ⟨h.1, h.2.1 "row-0" 2 (Or.inr (by decide))⟩

/-- C3.  For every non-entry target column invoked without `directInput`, if
the column's source column id matches no existing header, `runGeneration`
marks the target cell failed with the configuration-error message and stops:
the adapter-call trace is empty (the adapter is never invoked), every other
cell is unchanged, and the target cell keeps its value and gets status ERROR
with "Source column configuration invalid.". -/
theorem executeGeneration_config_error_stops
    (gen : String → String → Except String String)
    (headers : List ColumnHeader) (fuel : Nat) (rowId : String)
    (targetColIndex : Nat) (rows : List RowData) (targetHeader : ColumnHeader)
    (hh : headers.get? targetColIndex = some targetHeader)
    (hni : targetHeader.isInput = false)
    (hmiss : ∀ h2 ∈ headers, ¬ targetHeader.sourceColumnId = some h2.id) :
    executeGeneration gen headers (fuel + 1) rowId targetColIndex none rows
      = (updateCell rows rowId targetColIndex configErrorUpdate, [])
    ∧ (∀ rid j, rid ≠ rowId ∨ j ≠ targetColIndex →
        getCell (executeGeneration gen headers (fuel + 1) rowId targetColIndex
            none rows).1 rid j
          = getCell rows rid j)
    ∧ (∀ c, getCell rows rowId targetColIndex = some c →
        getCell (executeGeneration gen headers (fuel + 1) rowId targetColIndex
            none rows).1 rowId targetColIndex
          = some { c with status := CellStatus.ERROR,
                          errorMessage :=
                            some "Source column configuration invalid." }) := by
  have hfi : headers.findIdx?
      (fun h => some h.id == targetHeader.sourceColumnId) = none := by
    rw [List.findIdx?_eq_none_iff]
    intro h2 hmem
    have := hmiss h2 hmem
    simp only [beq_eq_false_iff_ne, ne_eq]
    intro hcontra
    exact this hcontra.symm
  have hres : resolveSource headers rows targetHeader rowId none
      = SourceLookup.configError := by
    simp only [resolveSource, hfi]
  have heq : executeGeneration gen headers (fuel + 1) rowId targetColIndex
      none rows
    = (updateCell rows rowId targetColIndex configErrorUpdate, []) := by
    simp only [executeGeneration, hh, hni, hres]
    simp
  refine ⟨heq, ?_, ?_⟩
  · intro rid j hne
    rw [heq, getCell_updateCell_of_ne _ _ _ _ _ _ hne]
  · intro c hc
    rw [heq]
    simp only
    rw [getCell_updateCell_self, hc]
    rfl

/-- Headers whose second column references a source id that no header has. -/
def danglingHeaders : List ColumnHeader :=
  [ColumnHeader.mk "col-0" "User Input" "" none true,
   ColumnHeader.mk "col-1" "Step 1 Output" "p" (some "col-gone") false]

/-- C3 witness: the theorem applied to a layout whose second column names a
deleted source id, so that regeneration of that column fails with the
configuration error and calls no adapter. -/
theorem executeGeneration_config_error_stops_witness :
    executeGeneration chainOracle danglingHeaders 1 "row-0" 1 none sampleRows
      = (updateCell sampleRows "row-0" 1 configErrorUpdate, []) :=
  (executeGeneration_config_error_stops chainOracle danglingHeaders 0 "row-0" 1
    sampleRows
    (ColumnHeader.mk "col-1" "Step 1 Output" "p" (some "col-gone") false)
    rfl rfl (by decide)).1

/-- C4.  For every row and target column, when the resolved input text —
`directInput` if supplied, otherwise the source cell's current value — is
empty or whitespace-only after trimming, `runGeneration` performs no adapter
call and leaves the entire state unchanged: the returned row store is exactly
the input one (so no cell has any status transition) and the adapter-call
trace is empty. -/
theorem executeGeneration_blank_input_noop
    (gen : String → String → Except String String)
    (headers : List ColumnHeader) (fuel : Nat) (rowId : String)
    (targetColIndex : Nat) (directInputVal : Option String)
    (rows : List RowData) (targetHeader : ColumnHeader) (v : String)
    (hh : headers.get? targetColIndex = some targetHeader)
    (hni : targetHeader.isInput = false)
    (hres : resolveSource headers rows targetHeader rowId directInputVal
      = SourceLookup.value v)
    (hb : isBlank v = true) :
    executeGeneration gen headers (fuel + 1) rowId targetColIndex
        directInputVal rows = (rows, []) := by
  simp only [executeGeneration, hh, hni, hres, hb]
  simp

/-- C4 witness: a whitespace-only direct input at column 1 of the initial
chain changes nothing and issues no adapter call. -/
theorem executeGeneration_blank_input_noop_witness :
    executeGeneration chainOracle initialHeaders 1 "row-0" 1 (some "  ")
        sampleRows = (sampleRows, []) :=
  executeGeneration_blank_input_noop chainOracle initialHeaders 0 "row-0" 1
    (some "  ") sampleRows
    (ColumnHeader.mk "col-1" "Step 1 Output"
      "Summarize the input in one sentence." (some "col-0") false)
    "  " rfl rfl rfl (by decide)

/-- C10.  Every cell update is total and a no-op out of range: `updateCell`
with a row id matching no row, or with a column index at which the matching
rows have no cell, returns the row store unchanged; and `executeGeneration`
invoked without `directInput` for a row id matching no row returns the store
unchanged with an empty adapter-call trace (in the code this is the
`if (!row) return` path; when the source lookup additionally fails, the
configuration-error write also targets the absent row and is itself a no-op). -/
theorem updateCell_total_and_missing_row_silent
    (gen : String → String → Except String String)
    (headers : List ColumnHeader) (fuel : Nat) (rowId : String)
    (targetColIndex : Nat) (rows : List RowData) (u : CellUpdates) :
    ((∀ r ∈ rows, r.id ≠ rowId) →
      updateCell rows rowId targetColIndex u = rows)
    ∧ ((∀ r ∈ rows, r.id = rowId → r.cells.get? targetColIndex = none) →
      updateCell rows rowId targetColIndex u = rows)
    ∧ ((∀ r ∈ rows, r.id ≠ rowId) →
      executeGeneration gen headers (fuel + 1) rowId targetColIndex none rows
        = (rows, [])) := by
  refine ⟨updateCell_no_matching_row rows rowId targetColIndex u,
    updateCell_out_of_range rows rowId targetColIndex u, ?_⟩
  intro hno
  have hfind : rows.find? (fun r => r.id == rowId) = none := by
    rw [List.find?_eq_none]
    intro r hr
    simpa using hno r hr
  have hupd : updateCell rows rowId targetColIndex configErrorUpdate = rows :=
    updateCell_no_matching_row rows rowId targetColIndex _ hno
  cases hh : headers.get? targetColIndex with
  | none => simp only [executeGeneration, hh]
  | some targetHeader =>
    cases hni : targetHeader.isInput with
    | true => simp only [executeGeneration, hh, hni]; simp
    | false =>
      cases hfi : headers.findIdx?
          (fun h => some h.id == targetHeader.sourceColumnId) with
      | none =>
        have hres : resolveSource headers rows targetHeader rowId none
            = SourceLookup.configError := by
          simp only [resolveSource, hfi]
        simp only [executeGeneration, hh, hni, hres, hupd]
        simp
      | some j =>
        have hres : resolveSource headers rows targetHeader rowId none
            = SourceLookup.missingRow := by
          simp only [resolveSource, hfi, hfind]
        simp only [executeGeneration, hh, hni, hres]
        simp

/-- C10 witness: an unknown row id makes both `updateCell` and a lookup-mode
`executeGeneration` no-ops, and an out-of-range column index makes
`updateCell` a no-op. -/
theorem updateCell_total_and_missing_row_silent_witness :
    updateCell sampleRows "row-missing" 1 loadingUpdate = sampleRows
    ∧ updateCell sampleRows "row-0" 7 loadingUpdate = sampleRows
    ∧ executeGeneration chainOracle initialHeaders 1 "row-missing" 1 none
        sampleRows = (sampleRows, []) := by
  have h1 := updateCell_total_and_missing_row_silent chainOracle
    initialHeaders 0 "row-missing" 1 sampleRows loadingUpdate
  have h2 := updateCell_total_and_missing_row_silent chainOracle
    initialHeaders 0 "row-0" 7 sampleRows loadingUpdate
  exact ⟨h1.1 (by decide), h2.2.1 (by decide), h1.2.2 (by decide)⟩

/-- C7.  Manually editing (typing in) any cell sets exactly that cell's value
to the typed text and its status to idle, and leaves every other cell's value
and status unchanged.  `handleCellChange` is a pure row-store update: it takes
no generation oracle and issues no adapter call, so no generation is
triggered by typing — propagation only happens in the blur (commit) handler,
which is modelled separately as `handleCellBlurIssued`. -/
theorem handleCellChange_is_local_idle_edit
    (rows : List RowData) (rowId : String) (colIndex : Nat) (t : String) :
    (∀ rid j, rid ≠ rowId ∨ j ≠ colIndex →
      getCell (handleCellChange rows rowId colIndex t) rid j
        = getCell rows rid j)
    ∧ (∀ c, getCell rows rowId colIndex = some c →
      getCell (handleCellChange rows rowId colIndex t) rowId colIndex
        = some { c with value := t, status := CellStatus.IDLE }) := by
  constructor
  · intro rid j hne
    exact getCell_updateCell_of_ne rows rowId rid colIndex j _ hne
  · intro c hc
    unfold handleCellChange
    rw [getCell_updateCell_self, hc]
    rfl

/-- C7 witness: typing "typed" into cell (row-0, col 1) of the sample store
turns exactly that cell idle with the typed text and leaves cell
(row-0, col 0) untouched. -/
theorem handleCellChange_is_local_idle_edit_witness :
    getCell (handleCellChange sampleRows "row-0" 1 "typed") "row-0" 0
      = getCell sampleRows "row-0" 0
    ∧ getCell (handleCellChange sampleRows "row-0" 1 "typed") "row-0" 1
      = some (CellData.mk "cell-0-1" "typed" CellStatus.IDLE none) :=
  ⟨(handleCellChange_is_local_idle_edit sampleRows "row-0" 1 "typed").1
      "row-0" 0 (Or.inr (by decide)),
   (handleCellChange_is_local_idle_edit sampleRows "row-0" 1 "typed").2
      (CellData.mk "cell-0-1" "" CellStatus.IDLE none) rfl⟩

/-! ### Helper lemmas about structural operations -/

theorem filterOutIdxGo_length (index : Nat) (l : List α) : ∀ pos : Nat,
    (filterOutIdxGo index pos l).length
      = if pos ≤ index ∧ index < pos + l.length then l.length - 1
        else l.length := by
  induction l with
  | nil => intro pos; simp [filterOutIdxGo]
  | cons a rest ih =>
    intro pos
    simp only [filterOutIdxGo, List.length_cons]
    by_cases h : pos = index
    · rw [if_pos h, ih (pos + 1)]
      split_ifs <;> omega
    · rw [if_neg h]
      simp only [List.length_cons]
      rw [ih (pos + 1)]
      split_ifs <;> omega

theorem filterOutIndex_length (index : Nat) (l : List α) :
    (filterOutIndex index l).length
      = if index < l.length then l.length - 1 else l.length := by
  unfold filterOutIndex
  rw [filterOutIdxGo_length]
  split_ifs <;> omega

/-- C6.  The lockstep invariant — every row's cell sequence has exactly one
cell per column header, aligned by position — is preserved by every
structural operation: add column appends one header whose default source is
the previously last column's id and one idle cell to every row; remove
column preserves lockstep at every index and is the identity at index 0; add
row appends one row made of one idle cell per current column. -/
theorem structural_ops_preserve_lockstep
    (headers : List ColumnHeader) (rows : List RowData) (stamp : String)
    (index : Nat) (hls : lockstep headers rows) :
    lockstep (addColumn headers rows stamp).1 (addColumn headers rows stamp).2
    ∧ (addColumn headers rows stamp).1.length = headers.length + 1
    ∧ (∀ h, (addColumn headers rows stamp).1.getLast? = some h →
        h.sourceColumnId = headers.getLast?.map ColumnHeader.id)
    ∧ removeColumn headers rows 0 = (headers, rows)
    ∧ lockstep (removeColumn headers rows index).1
        (removeColumn headers rows index).2
    ∧ lockstep headers (addRow headers rows stamp)
    ∧ (∀ r, (addRow headers rows stamp).getLast? = some r →
        r.cells.length = headers.length
        ∧ ∀ c ∈ r.cells, c.value = "" ∧ c.status = CellStatus.IDLE) := by
  refine ⟨?_, ?_, ?_, ?_, ?_, ?_, ?_⟩
  · intro r hr
    simp only [addColumn, List.mem_map] at hr
    obtain ⟨r0, hr0, rfl⟩ := hr
    simp only [addColumn, List.length_append, List.length_cons,
      List.length_nil]
    have := hls r0 hr0
    simp [this]
  · simp [addColumn]
  · intro h hh
    simp only [addColumn, List.getLast?_concat, Option.some_inj] at hh
    subst hh
    simp only
    rw [List.getLast?_eq_getElem?, ← List.get?_eq_getElem?]
  · simp [removeColumn]
  · by_cases h0 : index = 0
    · subst h0
      simp only [removeColumn, if_pos rfl]
      exact hls
    · simp only [removeColumn, if_neg h0]
      intro r hr
      simp only [List.mem_map] at hr
      obtain ⟨r0, hr0, rfl⟩ := hr
      simp only
      rw [filterOutIndex_length, filterOutIndex_length, hls r0 hr0]
  · intro r hr
    simp only [addRow] at hr
    rcases List.mem_append.mp hr with hin | hin
    · exact hls r hin
    · simp only [List.mem_singleton] at hin
      subst hin
      simp [List.enum_length]
  · intro r hr
    simp only [addRow, List.getLast?_concat, Option.some_inj] at hr
    subst hr
    constructor
    · simp [List.enum_length]
    · intro c hc
      simp only [List.mem_map] at hc
      obtain ⟨p, _hp, rfl⟩ := hc
      exact ⟨rfl, rfl⟩

/-- C6 witness: the operations applied to the initial three-column layout and
its sample row store. -/
theorem structural_ops_preserve_lockstep_witness :
    lockstep (addColumn initialHeaders sampleRows "9").1
      (addColumn initialHeaders sampleRows "9").2
    ∧ removeColumn initialHeaders sampleRows 0 = (initialHeaders, sampleRows)
    ∧ lockstep (removeColumn initialHeaders sampleRows 1).1
        (removeColumn initialHeaders sampleRows 1).2
    ∧ lockstep initialHeaders (addRow initialHeaders sampleRows "9") := by
  have h := structural_ops_preserve_lockstep initialHeaders sampleRows "9" 1
    (by intro r hr; fin_cases hr; rfl)
  exact ⟨h.1, h.2.2.2.1, h.2.2.2.2.1, h.2.2.2.2.2.1⟩

/-! ### C5: the propagation pass is not sequentially awaited -/

theorem fireDependents_trace (headers : List ColumnHeader)
    (rowId value : String) (hnb : isBlank value = false) :
    ∀ (deps : List (Nat × ColumnHeader)) (rows : List RowData),
    (∀ p ∈ deps, headers.get? p.1 = some p.2 ∧ p.2.isInput = false) →
    (fireDependents headers rowId value deps rows).2
      = deps.map (fun p => GenCall.mk rowId p.1 p.2.systemPrompt value) := by
  intro deps
  induction deps with
  | nil => intro rows _; rfl
  | cons p rest ih =>
    intro rows hmem
    obtain ⟨hget, hinp⟩ := hmem p (List.mem_cons_self p rest)
    have hstart : startGeneration headers rowId p.1 (some value) rows
        = (updateCell rows rowId p.1 loadingUpdate,
           some (GenCall.mk rowId p.1 p.2.systemPrompt value)) := by
      simp only [startGeneration, hget, hinp, resolveSource, hnb]
      simp
    cases p with
    | mk i h =>
      simp only [fireDependents, hstart, Option.toList_some,
        List.singleton_append, List.map_cons]
      rw [ih _ (fun q hq => hmem q (List.mem_cons_of_mem _ hq))]

theorem mem_dependentsOf_get? (headers : List ColumnHeader)
    (target : ColumnHeader) (p : Nat × ColumnHeader)
    (hp : p ∈ dependentsOf headers target) :
    headers.get? p.1 = some p.2 := by
  have hmem : p ∈ headers.enum := List.mem_of_mem_filter hp
  rw [List.get?_eq_getElem?]
  exact List.mem_enum_iff_getElem?.mp hmem

/-- C5 counterexample: with two columns both sourcing the input column,
committing the text "x" in the input cell issues BOTH dependents' adapter
calls in one synchronous pass: when the blur handler returns, two generation
calls are in flight and neither has resolved.  This refutes the claim that
each generation call is awaited to completion before the next one is issued
and that no two generation calls triggered by one propagation pass are in
flight at the same time — the source fires the recursive
`executeGeneration` promises inside `forEach` without awaiting them. -/
theorem handleCellBlur_two_calls_in_flight :
    (handleCellBlurIssued branchingHeaders "row-0" 0 "x" sampleRows).2
      = [GenCall.mk "row-0" 1 "p1" "x", GenCall.mk "row-0" 2 "p2" "x"]
    ∧ ((handleCellBlurIssued branchingHeaders "row-0" 0 "x" sampleRows).2).length
      = 2 := by
  constructor <;> decide

/-- C5 (amended).  Recursive propagation is fire-and-forget rather than
awaited: on commit, the handler issues the adapter call of every direct
dependent, in header order, within one synchronous pass — before any of the
issued calls resolves — so a column with several dependents has several
generation calls in flight at once.  Formally: when the committed text is
not blank and every dependent is a generated column, the calls in flight
when the blur handler returns are exactly one per dependent of the blurred
column, in header order, each carrying the committed text as its input. -/
theorem handleCellBlurIssued_fires_all_dependents
    (headers : List ColumnHeader) (rows : List RowData) (rowId : String)
    (colIndex : Nat) (value : String) (currentHeader : ColumnHeader)
    (hh : headers.get? colIndex = some currentHeader)
    (hnb : isBlank value = false)
    (hdeps : ∀ p ∈ dependentsOf headers currentHeader,
      (p.2 : ColumnHeader).isInput = false) :
    (handleCellBlurIssued headers rowId colIndex value rows).2
      = (dependentsOf headers currentHeader).map
          (fun p => GenCall.mk rowId p.1 p.2.systemPrompt value) := by
  simp only [handleCellBlurIssued, hh]
  exact fireDependents_trace headers rowId value hnb
    (dependentsOf headers currentHeader) rows
    (fun p hp => ⟨mem_dependentsOf_get? headers currentHeader p hp, hdeps p hp⟩)

/-- C5 amended-theorem witness: the amended statement instantiated on the
branching layout. -/
theorem handleCellBlurIssued_fires_all_dependents_witness :
    (handleCellBlurIssued branchingHeaders "row-9" 0 "y" sampleRows).2
      = (dependentsOf branchingHeaders
          (ColumnHeader.mk "col-0" "User Input" "" none true)).map
          (fun p => GenCall.mk "row-9" p.1 p.2.systemPrompt "y") :=
  handleCellBlurIssued_fires_all_dependents branchingHeaders sampleRows
    "row-9" 0 "y" (ColumnHeader.mk "col-0" "User Input" "" none true)
    rfl (by decide) (by decide)

/-! ### C8/C9: provider adapter behaviour -/

/-- The initial settings of the application component (provider GEMINI). -/
def initialSettings : AppSettings :=
  AppSettings.mk ProviderType.GEMINI "http://localhost:11434" "llama3"
    "gemini-2.5-flash"

/-- The initial settings with the local provider selected instead. -/
def localSettings : AppSettings :=
  AppSettings.mk ProviderType.LOCAL "http://localhost:11434" "llama3"
    "gemini-2.5-flash"

/-- A well-formed chat-completion body whose first choice's message content
is the empty string. -/
def emptyContentData : ChatCompletionJson :=
  ChatCompletionJson.mk
    (some [ChatChoiceJson.mk (some (ChatMessageJson.mk (some "")))])

/-- A 2xx response carrying `emptyContentData`. -/
def emptyContentResponse : HttpResponse :=
  HttpResponse.mk 200 "" (Except.ok emptyContentData)

/-- A fetch oracle that always answers with `emptyContentResponse`. -/
def emptyContentFetch : LocalRequest → FetchOutcome :=
  fun _req => FetchOutcome.success emptyContentResponse

/-- A fetch oracle that always answers with a 500 response. -/
def errorFetch : LocalRequest → FetchOutcome :=
  fun _req => FetchOutcome.success
    (HttpResponse.mk 500 "kaboom" (Except.error "parse"))

/-- C8 counterexample: with the LOCAL provider selected, a well-formed 2xx
response whose message content is the empty text yields a SUCCESSFUL result
(the empty string), because `generateLocal` extracts
`data.choices?.[0]?.message?.content || ""` without any emptiness check.
This refutes the claim that, for every provider, an empty-text response never
produces a successful result; only the Gemini branch has the
`if (!text) throw` guard. -/
theorem generateContent_local_empty_text_succeeds :
    generateContent emptyContentFetch
        (GeminiOutcome.success (GeminiResponse.mk (some "t"))) "sys" "usr"
        localSettings
      = Except.ok "" := rfl

/-- C8 (amended).  The hosted (Gemini) provider fails with
"Empty response from Gemini" whenever the response text is absent or empty;
the local provider, by contrast, treats a well-formed 2xx response whose
first-choice message content is empty (or absent) as a SUCCESS with the
empty string — only network errors, non-2xx statuses and unparseable bodies
fail there. -/
theorem generateContent_empty_response_behavior
    (fetchFn : LocalRequest → FetchOutcome) (api : GeminiOutcome)
    (sys usr : String) (settings : AppSettings) (resp : GeminiResponse)
    (r : HttpResponse) (data : ChatCompletionJson) :
    (settings.provider = ProviderType.GEMINI →
      api = GeminiOutcome.success resp →
      (resp.text = none ∨ resp.text = some "") →
      generateContent fetchFn api sys usr settings
        = Except.error "Empty response from Gemini")
    ∧ (settings.provider = ProviderType.LOCAL →
      fetchFn (buildLocalRequest sys usr settings) = FetchOutcome.success r →
      r.respOk = true → r.json = Except.ok data →
      firstChoiceContent data = "" →
      generateContent fetchFn api sys usr settings = Except.ok "") := by
  constructor
  · intro hprov hapi htext
    have hne : ¬ settings.provider = ProviderType.LOCAL := by
      rw [hprov]; decide
    simp only [generateContent, if_neg hne]
    subst hapi
    rcases htext with ht | ht <;> simp [generateGemini, ht]
  · intro hprov hf hrespOk hjson hcontent
    simp only [generateContent, if_pos hprov, generateLocal, hf, hrespOk,
      hjson, hcontent]
    simp

/-- C8 amended-theorem witness: the Gemini branch rejects an empty text while
the local branch succeeds with the empty string on an empty-content body. -/
theorem generateContent_empty_response_behavior_witness :
    generateContent emptyContentFetch
        (GeminiOutcome.success (GeminiResponse.mk (some ""))) "s" "u"
        initialSettings
      = Except.error "Empty response from Gemini"
    ∧ generateContent emptyContentFetch
        (GeminiOutcome.success (GeminiResponse.mk (some ""))) "s" "u"
        localSettings
      = Except.ok "" :=
  ⟨(generateContent_empty_response_behavior emptyContentFetch
      (GeminiOutcome.success (GeminiResponse.mk (some ""))) "s" "u"
      initialSettings (GeminiResponse.mk (some "")) emptyContentResponse
      emptyContentData).1 rfl rfl (Or.inr rfl),
   (generateContent_empty_response_behavior emptyContentFetch
      (GeminiOutcome.success (GeminiResponse.mk (some ""))) "s" "u"
      localSettings (GeminiResponse.mk (some "")) emptyContentResponse
      emptyContentData).2 rfl rfl rfl rfl rfl⟩

/-- C9.  The local HTTP provider issues a POST to
`{baseUrl}/v1/chat/completions` whose payload carries the configured model
name, a system message with the system prompt, a user message with the user
prompt, and `stream: false`; a non-2xx response makes it fail with an error
that includes the response body text, and a 2xx (parseable) response yields
the first choice's message content — the empty string when that field is
absent. -/
theorem generateLocal_request_and_response
    (fetchFn : LocalRequest → FetchOutcome) (sys usr : String)
    (settings : AppSettings) (r : HttpResponse) (data : ChatCompletionJson) :
    (buildLocalRequest sys usr settings).url
      = settings.localBaseUrl ++ "/v1/chat/completions"
    ∧ (buildLocalRequest sys usr settings).method = "POST"
    ∧ (buildLocalRequest sys usr settings).model = settings.localModelName
    ∧ (buildLocalRequest sys usr settings).messages
      = [ChatRequestMessage.mk "system" sys, ChatRequestMessage.mk "user" usr]
    ∧ (buildLocalRequest sys usr settings).stream = false
    ∧ (fetchFn (buildLocalRequest sys usr settings) = FetchOutcome.success r →
        (r.status < 200 ∨ 300 ≤ r.status) →
        generateLocal fetchFn sys usr settings
          = Except.error ("Local LLM Error: " ++ toString r.status ++ " - "
              ++ r.bodyText))
    ∧ (fetchFn (buildLocalRequest sys usr settings) = FetchOutcome.success r →
        200 ≤ r.status → r.status < 300 → r.json = Except.ok data →
        generateLocal fetchFn sys usr settings
          = Except.ok (firstChoiceContent data))
    ∧ (data.choices = none → firstChoiceContent data = "") := by
  refine ⟨rfl, rfl, rfl, rfl, rfl, ?_, ?_, ?_⟩
  · intro hf hst
    have hok : r.respOk = false := by
      simp only [HttpResponse.respOk, Bool.and_eq_false_iff]
      rcases hst with h | h
      · exact Or.inl (by simp [Nat.not_le.mpr h])
      · exact Or.inr (by simp [Nat.not_lt.mpr h])
    simp only [generateLocal, hf, hok]
    simp
  · intro hf h1 h2 hjson
    have hok : r.respOk = true := by
      simp only [HttpResponse.respOk, Bool.and_eq_true_iff]
      exact ⟨by simpa using h1, by simpa using h2⟩
    simp only [generateLocal, hf, hok, hjson]
    simp
  · intro h
    simp [firstChoiceContent, h]

/-- C9 witness: a 500 response rejects with the body text in the message, and
a 200 empty-content response resolves with the extracted (empty) content. -/
theorem generateLocal_request_and_response_witness :
    generateLocal errorFetch "s" "u" localSettings
      = Except.error ("Local LLM Error: " ++ toString 500 ++ " - " ++ "kaboom")
    ∧ generateLocal emptyContentFetch "s" "u" localSettings
      = Except.ok (firstChoiceContent emptyContentData) :=
  ⟨(generateLocal_request_and_response errorFetch "s" "u" localSettings
      (HttpResponse.mk 500 "kaboom" (Except.error "parse"))
      emptyContentData).2.2.2.2.2.1 rfl (Or.inr (by decide)),
   (generateLocal_request_and_response emptyContentFetch "s" "u" localSettings
      emptyContentResponse emptyContentData).2.2.2.2.2.2.1 rfl (by decide)
      (by decide) rfl⟩
